import Mathlib

/-!
Verification of the image-set discovery, normalization, caching and preview
pipeline of the SR web viewer (app/image_utils.py and app/main.py).

Decoded images are modelled by their shape (height, width, channel layout)
together with an abstract pixel payload.  OpenCV primitives are modelled by
their documented shape semantics; an OpenCV call that raises is modelled as
an error value, handled exactly where the source catches the exception.
Python float arithmetic on image dimensions is modelled by exact rational
arithmetic.
-/

/-- An in-memory raster as produced by cv2.imread: height, width, channel
layout (none for a 2-D array, some c for a 3-D array with c channels) and an
abstract pixel payload. -/
structure Raster where
  height : Nat
  width : Nat
  channels : Option Nat
  data : List Nat
  deriving DecidableEq, Repr

/-- A JPEG byte buffer, modelled by the dimensions the bytes decode to
(cv2.imencode records the encoded image's dimensions in the stream). -/
structure JpegBuf where
  height : Nat
  width : Nat
  deriving DecidableEq, Repr

/-- The three configured directory roots (REFERENCE_DIR, IMAGE_DIR_1,
IMAGE_DIR_2 in image_utils.py). -/
structure Config where
  referenceDir : String
  imageDir1 : String
  imageDir2 : String

/-- Model of cv2.resize(img, (new_w, new_h), interpolation=cv2.INTER_AREA):
succeeds exactly when both the source and the requested size are non-empty
(OpenCV asserts on an empty source or dsize and raises), and returns a raster
of the requested dimensions with the channel layout of the source.  The
resampled pixel payload is kept abstract. -/
def cvResize (img : Raster) (new_w new_h : Nat) : Option Raster :=
  if img.height = 0 ∨ img.width = 0 ∨ new_w = 0 ∨ new_h = 0 then none
  else some ⟨new_h, new_w, img.channels, img.data⟩

/-- Channel layouts the OpenCV JPEG encoder accepts: a 2-D array (one
channel) or a 3-D array with 1, 3 or 4 channels; anything else (for example
a 2-channel gray+alpha decode from IMREAD_UNCHANGED) makes cv2.imencode
raise. -/
def jpegEncodableChannels (c : Option Nat) : Bool :=
  match c with
  | none => true
  | some n => n == 1 || n == 3 || n == 4

/-- Model of cv2.imencode for JPEG at quality 80: it raises on an empty
raster or on a channel layout JPEG cannot encode (both mapped to none,
matching the source's except-clause and its success=False branch); on an
encodable raster it produces a byte buffer that decodes back to the raster's
dimensions. -/
def imencodeJpg (img : Raster) : Option JpegBuf :=
  if img.height = 0 ∨ img.width = 0 then none
  else if jpegEncodableChannels img.channels = true then some ⟨img.height, img.width⟩
  else none

/-- image_utils.create_low_res_preview.  The source computes
scale = width / w (Python float division) and new_h = int(h * scale)
(truncation toward zero); over nonnegative exact rationals this is the
floor, that is Nat division (h * width) / w.  A cv2 exception from resize
or encode is caught by the source's except-clause and yields None. -/
def create_low_res_preview (img : Option Raster) (width : Nat) : Option JpegBuf :=
  match img with
  | none => none
  | some i =>
      if i.width = 0 then none
      else
        let new_h := i.height * width / i.width
        let new_w := width
        match cvResize i new_w new_h with
        | none => none
        | some resized => imencodeJpg resized

/-- An OpenCV exception (cv2.error), carrying its message. -/
abbrev CVErr := String

/-- The OpenCV primitives used by normalize_image, as fallible transforms.
They are kept abstract so the embedding covers every possible behavior of the
library; shape contracts are imposed separately (CVOpsSpec). -/
structure CVOps where
  claheApply : Raster → Except CVErr Raster
  cvtBGR2LAB : Raster → Except CVErr Raster
  cvtLAB2BGR : Raster → Except CVErr Raster
  split3 : Raster → Except CVErr (Raster × Raster × Raster)
  merge3 : Raster → Raster → Raster → Except CVErr Raster

/-- The source's grayscale test: len(img.shape) < 3 or img.shape[2] == 1. -/
def isGrayRaster (r : Raster) : Bool := r.channels.isNone || r.channels == some 1

/-- The try-block of image_utils.normalize_image: CLAHE directly on a
grayscale image; for color, convert BGR to LAB, split, CLAHE on L, merge,
convert back.  Any cv2.error propagates out of the chain (to be caught by
the except-clause in normalize_image). -/
def normalizeCore (ops : CVOps) (img : Raster) : Except CVErr Raster :=
  if isGrayRaster img = true then ops.claheApply img
  else
    match ops.cvtBGR2LAB img with
    | Except.error e => Except.error e
    | Except.ok lab =>
      match ops.split3 lab with
      | Except.error e => Except.error e
      | Except.ok lab3 =>
        match ops.claheApply lab3.fst with
        | Except.error e => Except.error e
        | Except.ok cl =>
          match ops.merge3 cl lab3.snd.fst lab3.snd.snd with
          | Except.error e => Except.error e
          | Except.ok limg => ops.cvtLAB2BGR limg

/-- image_utils.normalize_image: None passes through; a cv2.error from the
transform chain is caught and the original raster is returned. -/
def normalize_image (ops : CVOps) (img : Option Raster) : Option Raster :=
  match img with
  | none => none
  | some i =>
      match normalizeCore ops i with
      | Except.ok r => some r
      | Except.error _ => some i

/-- Dimension contracts of the OpenCV primitives, as documented by OpenCV:
each successful call preserves height and width; CLAHE yields a
single-channel image; the LAB conversions require and produce 3-channel
images; split yields planes of the source's dimensions; merge of three
planes yields a 3-channel image of the first plane's dimensions. -/
structure CVOpsSpec (ops : CVOps) : Prop where
  clahe_dims : ∀ r r', ops.claheApply r = Except.ok r' →
    r'.height = r.height ∧ r'.width = r.width ∧ isGrayRaster r' = true
  bgr2lab_dims : ∀ r r', ops.cvtBGR2LAB r = Except.ok r' →
    r'.height = r.height ∧ r'.width = r.width ∧ r'.channels = some 3 ∧ r.channels = some 3
  split_dims : ∀ r t, ops.split3 r = Except.ok t →
    t.fst.height = r.height ∧ t.fst.width = r.width
  merge_dims : ∀ l a b r', ops.merge3 l a b = Except.ok r' →
    r'.height = l.height ∧ r'.width = l.width ∧ r'.channels = some 3
  lab2bgr_dims : ∀ r r', ops.cvtLAB2BGR r = Except.ok r' →
    r'.height = r.height ∧ r'.width = r.width ∧ r'.channels = some 3

/-- A concrete model of the OpenCV primitives obeying their documented shape
semantics, with an abstract action on the pixel payload. -/
def mOps : CVOps :=
  { claheApply := fun r =>
      if isGrayRaster r = true then
        Except.ok ⟨r.height, r.width, none, r.data.map (fun x => x + 1)⟩
      else Except.error "clahe needs a single-channel image"
    cvtBGR2LAB := fun r =>
      if r.channels = some 3 then Except.ok ⟨r.height, r.width, some 3, r.data⟩
      else Except.error "cvtColor BGR2LAB needs 3 channels"
    cvtLAB2BGR := fun r =>
      if r.channels = some 3 then Except.ok ⟨r.height, r.width, some 3, r.data⟩
      else Except.error "cvtColor LAB2BGR needs 3 channels"
    split3 := fun r =>
      if r.channels = some 3 then
        Except.ok (⟨r.height, r.width, none, r.data⟩, ⟨r.height, r.width, none, r.data⟩,
          ⟨r.height, r.width, none, r.data⟩)
      else Except.error "split needs 3 channels"
    merge3 := fun l a b => Except.ok ⟨l.height, l.width, some 3, l.data ++ a.data ++ b.data⟩ }

/-- A model of the OpenCV primitives in which every call raises cv2.error,
standing for a malformed buffer. -/
def failOps : CVOps :=
  { claheApply := fun _ => Except.error "cv2.error"
    cvtBGR2LAB := fun _ => Except.error "cv2.error"
    cvtLAB2BGR := fun _ => Except.error "cv2.error"
    split3 := fun _ => Except.error "cv2.error"
    merge3 := fun _ _ _ => Except.error "cv2.error" }

/-- State of the functools.lru_cache on load_full_image: association list from
file path to the cached return value, ordered most-recently-used first.  Note
that lru_cache stores every return value, including None. -/
abbrev CacheState := List (String × Option Raster)

/-- The set of paths resident in the cache, in recency order. -/
def cacheKeys (st : CacheState) : List String := st.map Prod.fst

/-- The maxsize argument of the lru_cache decorator on load_full_image. -/
def lruCapacity : Nat := 32

/-- One call through functools.lru_cache: on a hit the stored value is
returned and the entry moves to the most-recent position; on a miss the
wrapped function is invoked, its result (whatever it is) is stored
most-recent, and if the cache exceeds capacity the least-recently-used entry
(the tail of the list) is discarded. -/
def lruLoad (st : CacheState) (f : String → Option Raster) (k : String) :
    Option Raster × CacheState :=
  match st.find? (fun p => p.fst == k) with
  | some p => (p.snd, (k, p.snd) :: st.filter (fun q => !(q.fst == k)))
  | none =>
      let v := f k
      (v, ((k, v) :: st).take lruCapacity)

/-- The body of image_utils.load_full_image (the wrapped function, without the
cache): missing file yields None; cv2.imread yielding None (decode failure)
yields None; otherwise the decoded raster is normalized. -/
def load_full_image_uncached (ops : CVOps) (fs : String → Bool)
    (disk : String → Option Raster) (filepath : String) : Option Raster :=
  if fs filepath = true then
    match disk filepath with
    | none => none
    | some img => normalize_image ops (some img)
  else none

/-- image_utils.load_full_image as seen by callers: the lru_cache wrapper
around the loading body, threading the cache state explicitly. -/
def load_full_image (st : CacheState) (ops : CVOps) (fs : String → Bool)
    (disk : String → Option Raster) (filepath : String) :
    Option Raster × CacheState :=
  lruLoad st (load_full_image_uncached ops fs disk) filepath

/-- Sequentially loading a list of paths, keeping only the final cache
state. -/
def loadAll (st : CacheState) (ops : CVOps) (fs : String → Bool)
    (disk : String → Option Raster) (ks : List String) : CacheState :=
  ks.foldl (fun s k => (load_full_image s ops fs disk k).snd) st

/-- A filesystem on which no path exists. -/
def fsNone : String → Bool := fun _ => false

/-- A filesystem on which every path exists. -/
def fsAll : String → Bool := fun _ => true

/-- A disk whose files all fail to decode. -/
def diskNone : String → Option Raster := fun _ => none

/-- A concrete grayscale 2 x 2 raster. -/
def sampleImg : Raster := ⟨2, 2, none, [1, 2, 3, 4]⟩

/-- A disk on which every path decodes to sampleImg. -/
def diskSample : String → Option Raster := fun _ => some sampleImg

/-- A concrete cache state holding exactly 32 distinct paths. -/
def stCap : CacheState := (List.range 32).map (fun i => (Nat.repr i, none))

/-- Thirty-three distinct concrete paths. -/
def ks33 : List String := (List.range 33).map Nat.repr

/-- Character-level model of str.startswith. -/
def strStartsWith (s t : String) : Bool := t.data.isPrefixOf s.data

/-- Character-level model of str.endswith. -/
def strEndsWith (s t : String) : Bool := t.data.isSuffixOf s.data

/-- Character-level model of slicing a string to its first n characters. -/
def strTake (s : String) (n : Nat) : String := ⟨s.data.take n⟩

/-- Character-level model of slicing off the first n characters. -/
def strDrop (s : String) (n : Nat) : String := ⟨s.data.drop n⟩

/-- Character count of a string (Python len). -/
def strLength (s : String) : Nat := s.data.length

/-- Whether every character of the string satisfies the test. -/
def strAll (s : String) (p : Char → Bool) : Bool := s.data.all p

/-- Model of os.path.join for one directory and one file name: an absolute
name wins; otherwise the parts are joined with a single separator. -/
def joinPath (d f : String) : String :=
  if strStartsWith f "/" then f
  else if d = "" then f
  else if strEndsWith d "/" then d ++ f
  else d ++ "/" ++ f

/-- The tl entry of image_utils.get_filenames. -/
def tlPath (cfg : Config) (num : String) : String :=
  joinPath cfg.referenceDir (num ++ "-4x_cropped.png")

/-- The tr entry of image_utils.get_filenames. -/
def trPath (cfg : Config) (num : String) : String :=
  joinPath cfg.referenceDir (num ++ "-20x.png")

/-- The bl entry of image_utils.get_filenames. -/
def blPath (cfg : Config) (num : String) : String :=
  joinPath cfg.imageDir1 (num ++ "-4x_cropped_HAT_RAW_FDL_grayscale_v2_TEST.png")

/-- The br entry of image_utils.get_filenames. -/
def brPath (cfg : Config) (num : String) : String :=
  joinPath cfg.imageDir2 (num ++ "-4x_cropped_HAT_DUAL_earlyfusion_FDL_grayscale_v2_TEST.png")

/-- The four quadrant names, in the order main.py validates them. -/
def quadrants : List String := ["tl", "tr", "bl", "br"]

/-- image_utils.get_filenames as a quadrant lookup (dict.get semantics: an
unknown quadrant yields none). -/
def get_filenames (cfg : Config) (number_str : String) (q : String) : Option String :=
  if q = "tl" then some (tlPath cfg number_str)
  else if q = "tr" then some (trPath cfg number_str)
  else if q = "bl" then some (blPath cfg number_str)
  else if q = "br" then some (brPath cfg number_str)
  else none

/-- The values of the get_filenames dict, as iterated by discovery. -/
def filenameValues (cfg : Config) (num : String) : List String :=
  [tlPath cfg num, trPath cfg num, blPath cfg num, brPath cfg num]

/-- The glob pattern ????-4x_cropped.png on a basename: exactly four leading
characters (the glob ? does not match a leading dot) followed by the fixed
suffix. -/
def globMatchRef (name : String) : Bool :=
  strLength name == 19 && strDrop name 4 == "-4x_cropped.png" && !(strStartsWith name ".")

/-- The regex search for four digits followed by -4x_cropped.png at the end
of the basename; on success the captured four-digit group. -/
def extractNum (name : String) : Option String :=
  if strEndsWith name "-4x_cropped.png" && decide (19 ≤ strLength name) &&
      strAll (strTake (strDrop name (strLength name - 19)) 4) (fun c => c.isDigit)
  then some (strTake (strDrop name (strLength name - 19)) 4)
  else none

/-- The set of candidate numbers scraped from the reference-directory
listing (a Python set; modelled with duplicates removed). -/
def potentialNumbers (listing : List String) : List String :=
  ((listing.filter globMatchRef).filterMap extractNum).dedup

/-- Lexicographic strict order on character lists by code point (Python
string comparison). -/
def charsLt : List Char → List Char → Bool
  | [], [] => false
  | [], _ :: _ => true
  | _ :: _, [] => false
  | a :: as, b :: bs =>
      if a.toNat < b.toNat then true
      else if b.toNat < a.toNat then false
      else charsLt as bs

/-- Non-strict string comparison by code point. -/
def strLe (a b : String) : Bool := !(charsLt b.data a.data)

/-- Insertion into an ascending list of strings. -/
def insertSortedStr (x : String) : List String → List String
  | [] => [x]
  | y :: ys => if strLe x y then x :: y :: ys else y :: insertSortedStr x ys

/-- Ascending sort of strings (Python sorted on the candidate set). -/
def sortStrings (l : List String) : List String := l.foldr insertSortedStr []

/-- image_utils.find_available_image_sets, over an explicit directory listing
of REFERENCE_DIR basenames and an os.path.exists oracle: scrape candidate
numbers, return early when none are found, otherwise keep the sorted
candidates whose four quadrant files all exist. -/
def find_available_image_sets (cfg : Config) (listing : List String)
    (fs : String → Bool) : List String :=
  let potential := potentialNumbers listing
  if potential.isEmpty then []
  else (sortStrings potential).filter (fun num => (filenameValues cfg num).all fs)

/-- Outcome of the /api/image-preview endpoint: HTTP 404, HTTP 500 or the
JPEG body. -/
inductive ApiResult where
  | notFound (detail : String)
  | internalError (detail : String)
  | ok (b : JpegBuf)
  deriving DecidableEq, Repr

/-- Whether the endpoint outcome is a 404 response. -/
def ApiResult.isNotFound : ApiResult → Bool
  | ApiResult.notFound _ => true
  | _ => false

/-- Whether the endpoint outcome is a 500 response. -/
def ApiResult.isInternalError : ApiResult → Bool
  | ApiResult.internalError _ => true
  | _ => false

/-- main.get_image_preview, parameterized by the discovered registry, the
filesystem and the (cached) image loader: validate the set number against the
registry, validate the quadrant, resolve the path, check it is non-empty and
exists, load the full image, and derive the preview. -/
def get_image_preview (cfg : Config) (sets : List String) (fs : String → Bool)
    (load : String → Option Raster) (set_number quadrant : String) : ApiResult :=
  if set_number ∉ sets then ApiResult.notFound "Image set not found."
  else if quadrant ∉ quadrants then ApiResult.notFound "Invalid quadrant."
  else
    match get_filenames cfg set_number quadrant with
    | none => ApiResult.notFound "File path not found."
    | some filepath =>
        if filepath = "" ∨ fs filepath = false then ApiResult.notFound "File path not found."
        else
          match load filepath with
          | none => ApiResult.notFound "Could not load image file."
          | some full_image =>
              match create_low_res_preview (some full_image) 400 with
              | none => ApiResult.internalError "Failed to generate image preview."
              | some preview_bytes => ApiResult.ok preview_bytes

/-- A concrete configuration for witnesses. -/
def cfg0 : Config := ⟨"ref", "d1", "d2"⟩

/-- A concrete filesystem: set 0001 is complete, set 0002 is missing its bl
file in d1. -/
def demoFiles : List String :=
  ["ref/0001-4x_cropped.png", "ref/0001-20x.png",
   "d1/0001-4x_cropped_HAT_RAW_FDL_grayscale_v2_TEST.png",
   "d2/0001-4x_cropped_HAT_DUAL_earlyfusion_FDL_grayscale_v2_TEST.png",
   "ref/0002-4x_cropped.png", "ref/0002-20x.png",
   "d2/0002-4x_cropped_HAT_DUAL_earlyfusion_FDL_grayscale_v2_TEST.png"]

/-- The os.path.exists oracle of the concrete filesystem. -/
def fsDemo : String → Bool := fun s => demoFiles.contains s

/-- The reference-directory listing of the concrete filesystem. -/
def listing0 : List String := ["0001-4x_cropped.png", "0002-4x_cropped.png"]

/-- Any buffer create_low_res_preview produces carries exactly the computed
target dimensions: height (h * width) / w and the requested width. -/
theorem create_low_res_preview_some_eq (r : Raster) (width : Nat) (b : JpegBuf)
    (h : create_low_res_preview (some r) width = some b) :
    b = ⟨r.height * width / r.width, width⟩ := by
  simp only [create_low_res_preview] at h
  by_cases hw : r.width = 0
  · simp [hw] at h
  · simp only [hw, if_false] at h
    unfold cvResize at h
    by_cases hres : r.height = 0 ∨ r.width = 0 ∨ width = 0 ∨ r.height * width / r.width = 0
    · simp [hres] at h
    · simp only [hres, if_false] at h
      unfold imencodeJpg at h
      by_cases henc : r.height * width / r.width = 0 ∨ width = 0
      · simp [henc] at h
      · simp only [henc, if_false] at h
        by_cases hch : jpegEncodableChannels r.channels = true
        · simp only [hch, if_true, Option.some.injEq] at h
          exact h.symm
        · simp [hch] at h

/-- C5: preview width round-trip — whenever create_low_res_preview returns a
JPEG buffer, that buffer decodes to an image whose width is exactly the
requested target width, for every source raster. -/
theorem create_low_res_preview_width_exact
    (img : Option Raster) (width : Nat) (b : JpegBuf)
    (h : create_low_res_preview img width = some b) : b.width = width := by
  match img with
  | none => simp [create_low_res_preview] at h
  | some i => rw [create_low_res_preview_some_eq i width b h]

/-- Witness for C5 on a 3000 × 4000 source at target width 400: the encoded
preview decodes to width exactly 400. -/
theorem create_low_res_preview_width_exact_witness :
    (⟨300, 400⟩ : JpegBuf).width = 400 :=
  create_low_res_preview_width_exact (some ⟨3000, 4000, some 3, []⟩) 400 ⟨300, 400⟩ rfl

/-- C4 counterexample: on a 2 × 3 raster at target width 400 the code produces
height 266 (truncation of 800/3), while rounding 800/3 gives 267, so the
output height is not the rounded product of source height and scale. -/
theorem create_low_res_preview_height_round_cex :
    create_low_res_preview (some ⟨2, 3, some 3, [0, 0, 0]⟩) 400 = some ⟨266, 400⟩ ∧
    round ((2 * 400 : ℚ) / 3) = 267 ∧ (266 : ℤ) ≠ 267 := by
  refine ⟨rfl, ?_, by decide⟩
  rw [round_eq]
  norm_num

/-- C4 amended: whenever create_low_res_preview produces a buffer, that
buffer's height is the truncated (floored) product of the source height and
the scale factor width / w, i.e. Nat division (h * width) / w, not the
rounded product. -/
theorem create_low_res_preview_height_floor
    (r : Raster) (width : Nat) (b : JpegBuf)
    (h : create_low_res_preview (some r) width = some b) :
    b.height = r.height * width / r.width ∧
    b.height = ⌊((r.height : ℚ) * width) / (r.width : ℚ)⌋₊ := by
  have hb := create_low_res_preview_some_eq r width b h
  subst hb
  refine ⟨rfl, ?_⟩
  rw [show ((r.height : ℚ) * width) = ((r.height * width : Nat) : ℚ) by push_cast; ring,
    Nat.floor_div_nat, Nat.floor_natCast]

/-- Witness for C4 amended on a 300 × 200 source at target width 400:
the preview is 600 × 400 and 600 is the floor of 300 · (400 / 200). -/
theorem create_low_res_preview_height_floor_witness :
    (⟨600, 400⟩ : JpegBuf).height = 300 * 400 / 200 ∧
    (⟨600, 400⟩ : JpegBuf).height = ⌊((300 : ℚ) * 400) / (200 : ℚ)⌋₊ :=
  create_low_res_preview_height_floor ⟨300, 200, some 3, []⟩ 400 ⟨600, 400⟩ rfl

/-- C10 counterexample: a 100 × 200 raster with two channels (a gray+alpha
decode, reachable through IMREAD_UNCHANGED) has width strictly between 0 and
the target 400 and positive height, yet create_low_res_preview rejects it
with an absent result, because cv2.imencode raises on a 2-channel image —
refuting both the unconditional acceptance of narrow inputs and the claim
that only zero-width or absent rasters are rejected. -/
theorem create_low_res_preview_upscales_narrow_cex :
    create_low_res_preview (some ⟨100, 200, some 2, []⟩) 400 = none ∧
    (0 : Nat) < 100 ∧ (0 : Nat) < 200 ∧ (200 : Nat) < 400 :=
  ⟨rfl, by decide, by decide, by decide⟩

/-- C10 amended: narrow inputs are never rejected for being narrow — any
raster of positive height with a JPEG-encodable channel layout whose width
lies strictly between 0 and the target 400 is resized up to width exactly
400 and encoded; an absent raster or a zero-width raster is rejected with an
absent result, and so is a raster whose channel layout the JPEG encoder
refuses. -/
theorem create_low_res_preview_upscales_narrow :
    (∀ r : Raster, 0 < r.height → 0 < r.width → r.width < 400 →
      jpegEncodableChannels r.channels = true →
      ∃ b, create_low_res_preview (some r) 400 = some b ∧ b.width = 400 ∧ r.width < b.width) ∧
    create_low_res_preview none 400 = none ∧
    (∀ r : Raster, r.width = 0 → create_low_res_preview (some r) 400 = none) ∧
    (∀ r : Raster, jpegEncodableChannels r.channels = false →
      create_low_res_preview (some r) 400 = none) := by
  refine ⟨?_, rfl, ?_, ?_⟩
  · intro r hh hw hw400 hch
    have hple : r.width ≤ r.height * 400 := by nlinarith
    have hpos : 0 < r.height * 400 / r.width := Nat.div_pos hple hw
    have hh0 : r.height ≠ 0 := by omega
    have hw0 : r.width ≠ 0 := by omega
    have hnh0 : r.height * 400 / r.width ≠ 0 := by omega
    refine ⟨⟨r.height * 400 / r.width, 400⟩, ?_, rfl, hw400⟩
    simp [create_low_res_preview, cvResize, imencodeJpg, hh0, hw0, hnh0, hch]
  · intro r hw
    simp [create_low_res_preview, hw]
  · intro r hch
    by_cases hw : r.width = 0
    · simp [create_low_res_preview, hw]
    · cases hcv : cvResize r 400 (r.height * 400 / r.width) with
      | none => simp [create_low_res_preview, hw, hcv]
      | some resized =>
          have hchR : resized.channels = r.channels := by
            unfold cvResize at hcv
            split at hcv
            · cases hcv
            · rw [Option.some.injEq] at hcv
              rw [← hcv]
          simp [create_low_res_preview, hw, hcv, imencodeJpg, hchR, hch]

/-- Witness for C10 amended on a 100 × 200 three-channel source: the preview
exists with width 400, strictly larger than the source width; a zero-width
raster is rejected; and a 2-channel raster is rejected. -/
theorem create_low_res_preview_upscales_narrow_witness :
    (∃ b, create_low_res_preview (some ⟨100, 200, some 3, []⟩) 400 = some b ∧
      b.width = 400 ∧ (200 : Nat) < b.width) ∧
    create_low_res_preview (some ⟨5, 0, none, []⟩) 400 = none ∧
    create_low_res_preview (some ⟨7, 9, some 2, []⟩) 400 = none :=
  ⟨create_low_res_preview_upscales_narrow.1 ⟨100, 200, some 3, []⟩
      (by decide) (by decide) (by decide) (by decide),
    create_low_res_preview_upscales_narrow.2.2.1 ⟨5, 0, none, []⟩ rfl,
    create_low_res_preview_upscales_narrow.2.2.2 ⟨7, 9, some 2, []⟩ rfl⟩

/-- The concrete model mOps satisfies the OpenCV shape contracts. -/
theorem mOps_satisfies_spec : CVOpsSpec mOps := by
  refine ⟨?_, ?_, ?_, ?_, ?_⟩
  · intro r r' h
    simp only [mOps] at h
    split at h
    · rename_i hg
      rw [Except.ok.injEq] at h
      subst h
      exact ⟨rfl, rfl, by simp [isGrayRaster]⟩
    · exact absurd h (by simp)
  · intro r r' h
    simp only [mOps] at h
    split at h
    · rename_i hc
      rw [Except.ok.injEq] at h
      subst h
      exact ⟨rfl, rfl, rfl, hc⟩
    · exact absurd h (by simp)
  · intro r t h
    simp only [mOps] at h
    split at h
    · rw [Except.ok.injEq] at h
      subst h
      exact ⟨rfl, rfl⟩
    · exact absurd h (by simp)
  · intro l a b r' h
    simp only [mOps] at h
    rw [Except.ok.injEq] at h
    subst h
    exact ⟨rfl, rfl, rfl⟩
  · intro r r' h
    simp only [mOps] at h
    split at h
    · rename_i hc
      rw [Except.ok.injEq] at h
      subst h
      exact ⟨rfl, rfl, rfl⟩
    · exact absurd h (by simp)

/-- C6: normalize_image is total over decoded rasters and falls back to the
original raster whenever the underlying transform chain raises. -/
theorem normalize_image_total_fallback (ops : CVOps) (img : Raster) :
    (∃ r, normalize_image ops (some img) = some r) ∧
    (∀ e, normalizeCore ops img = Except.error e →
      normalize_image ops (some img) = some img) := by
  constructor
  · cases h : normalizeCore ops img with
    | ok r => exact ⟨r, by simp [normalize_image, h]⟩
    | error e => exact ⟨img, by simp [normalize_image, h]⟩
  · intro e he
    simp [normalize_image, he]

/-- Witness for C6: with every OpenCV call raising, normalization of a
concrete raster returns that raster unchanged. -/
theorem normalize_image_total_fallback_witness :
    normalize_image failOps (some ⟨2, 2, none, [1, 2, 3, 4]⟩) =
      some ⟨2, 2, none, [1, 2, 3, 4]⟩ :=
  (normalize_image_total_fallback failOps ⟨2, 2, none, [1, 2, 3, 4]⟩).2 "cv2.error" rfl

/-- C7: normalize_image preserves shape — under the OpenCV shape contracts,
a grayscale input yields a single-channel output of identical height and
width, and a color input yields an output of identical height, width and
channel count. -/
theorem normalize_image_preserves_shape (ops : CVOps) (hops : CVOpsSpec ops) (r : Raster) :
    ∃ r', normalize_image ops (some r) = some r' ∧
      r'.height = r.height ∧ r'.width = r.width ∧
      (isGrayRaster r = true → isGrayRaster r' = true) ∧
      (isGrayRaster r = false → r'.channels = r.channels) := by
  cases hcore : normalizeCore ops r with
  | error e =>
      exact ⟨r, by simp [normalize_image, hcore], rfl, rfl, fun h => h, fun _ => rfl⟩
  | ok out =>
      refine ⟨out, by simp [normalize_image, hcore], ?_⟩
      by_cases hg : isGrayRaster r = true
      · rw [normalizeCore, if_pos hg] at hcore
        obtain ⟨h1, h2, h3⟩ := hops.clahe_dims r out hcore
        exact ⟨h1, h2, fun _ => h3, fun hfalse => absurd hg (by simp [hfalse])⟩
      · rw [normalizeCore, if_neg hg] at hcore
        split at hcore
        · exact absurd hcore (by simp)
        · rename_i lab hlab
          split at hcore
          · exact absurd hcore (by simp)
          · rename_i lab3 hsplit
            split at hcore
            · exact absurd hcore (by simp)
            · rename_i cl hcl
              split at hcore
              · exact absurd hcore (by simp)
              · rename_i limg hmerge
                obtain ⟨e1, e2, e3, e4⟩ := hops.bgr2lab_dims r lab hlab
                obtain ⟨s1, s2⟩ := hops.split_dims lab lab3 hsplit
                obtain ⟨c1, c2, _⟩ := hops.clahe_dims lab3.fst cl hcl
                obtain ⟨m1, m2, _⟩ := hops.merge_dims cl lab3.snd.fst lab3.snd.snd limg hmerge
                obtain ⟨f1, f2, f3⟩ := hops.lab2bgr_dims limg out hcore
                refine ⟨?_, ?_, fun habs => absurd habs hg, fun _ => ?_⟩
                · rw [f1, m1, c1, s1, e1]
                · rw [f2, m2, c2, s2, e2]
                · rw [f3, e4]

/-- Witness for C7 on a concrete 2 × 3 color raster under the concrete model
of the OpenCV primitives. -/
theorem normalize_image_preserves_shape_witness :
    ∃ r', normalize_image mOps (some ⟨2, 3, some 3, [7]⟩) = some r' ∧
      r'.height = 2 ∧ r'.width = 3 ∧
      (isGrayRaster ⟨2, 3, some 3, [7]⟩ = true → isGrayRaster r' = true) ∧
      (isGrayRaster ⟨2, 3, some 3, [7]⟩ = false →
        r'.channels = (⟨2, 3, some 3, [7]⟩ : Raster).channels) :=
  normalize_image_preserves_shape mOps mOps_satisfies_spec ⟨2, 3, some 3, [7]⟩

/-- Taking a positive number of elements from a cons keeps the head. -/
theorem take_pos_cons {α : Type} (n : Nat) (hn : n ≠ 0) (a : α) (l : List α) :
    (a :: l).take n = a :: l.take (n - 1) := by
  cases n with
  | zero => exact absurd rfl hn
  | succ m => simp

/-- Unfolding lruLoad on a cache hit. -/
theorem lruLoad_eq_hit (st : CacheState) (f : String → Option Raster) (k : String)
    (p : String × Option Raster) (h : st.find? (fun q => q.fst == k) = some p) :
    lruLoad st f k = (p.snd, (k, p.snd) :: st.filter (fun q => !(q.fst == k))) := by
  unfold lruLoad
  rw [h]

/-- Unfolding lruLoad on a cache miss. -/
theorem lruLoad_eq_miss (st : CacheState) (f : String → Option Raster) (k : String)
    (h : st.find? (fun q => q.fst == k) = none) :
    lruLoad st f k = (f k, ((k, f k) :: st).take lruCapacity) := by
  unfold lruLoad
  rw [h]

/-- A path absent from the cache keys is not found by the lookup. -/
theorem find?_none_of_not_mem_keys (st : CacheState) (k : String) (h : k ∉ cacheKeys st) :
    st.find? (fun q => q.fst == k) = none := by
  rw [List.find?_eq_none]
  intro q hq
  simp only [beq_iff_eq]
  intro hqk
  exact h (hqk ▸ List.mem_map_of_mem Prod.fst hq)

/-- A second lookup of the same key returns whatever the first call returned,
however the wrapped function behaves on the second call. -/
theorem lruLoad_again (st : CacheState) (f g : String → Option Raster) (k : String) :
    (lruLoad (lruLoad st f k).snd g k).fst = (lruLoad st f k).fst := by
  cases h : st.find? (fun q => q.fst == k) with
  | some p =>
      rw [lruLoad_eq_hit st f k p h]
      dsimp only
      rw [lruLoad_eq_hit _ g k (k, p.snd) (List.find?_cons_of_pos _ (by simp))]
  | none =>
      rw [lruLoad_eq_miss st f k h]
      dsimp only
      rw [take_pos_cons lruCapacity (by decide)]
      rw [lruLoad_eq_hit _ g k (k, f k) (List.find?_cons_of_pos _ (by simp))]

/-- C9: load idempotence — a second consecutive call for the same path
returns exactly the value the first call returned, regardless of what the
filesystem and decoder would do on the second call (the cache is hit, disk
is not re-read); and for a fresh path to an existing, decodable file the
returned value is the normalized decode. -/
theorem load_full_image_idempotent :
    (∀ (st : CacheState) (ops : CVOps) (fs : String → Bool)
        (disk : String → Option Raster) (p : String)
        (fs2 : String → Bool) (dsk2 : String → Option Raster),
      (load_full_image (load_full_image st ops fs disk p).snd ops fs2 dsk2 p).fst =
        (load_full_image st ops fs disk p).fst) ∧
    (∀ (st : CacheState) (ops : CVOps) (fs : String → Bool)
        (disk : String → Option Raster) (p : String) (img : Raster),
      p ∉ cacheKeys st → fs p = true → disk p = some img →
      (load_full_image st ops fs disk p).fst = normalize_image ops (some img)) := by
  constructor
  · intro st ops fs disk p fs2 dsk2
    exact lruLoad_again st (load_full_image_uncached ops fs disk)
      (load_full_image_uncached ops fs2 dsk2) p
  · intro st ops fs disk p img hp hfs hdisk
    rw [load_full_image, lruLoad_eq_miss st _ p (find?_none_of_not_mem_keys st p hp)]
    dsimp only
    simp [load_full_image_uncached, hfs, hdisk]

/-- Witness for C9: loading a concrete fresh path twice from an empty cache
returns the same raster both times, namely the normalized decode. -/
theorem load_full_image_idempotent_witness :
    (load_full_image (load_full_image [] mOps fsAll diskSample "p1").snd
        mOps fsAll diskSample "p1").fst =
      (load_full_image [] mOps fsAll diskSample "p1").fst ∧
    (load_full_image [] mOps fsAll diskSample "p1").fst =
      normalize_image mOps (some sampleImg) :=
  ⟨load_full_image_idempotent.1 [] mOps fsAll diskSample "p1" fsAll diskSample,
    load_full_image_idempotent.2 [] mOps fsAll diskSample "p1" sampleImg
      (by simp [cacheKeys]) rfl rfl⟩

/-- C2 counterexample: after a failed load of path "p" (file absent), the
failure IS stored in the cache, and a subsequent call for "p" returns the
remembered None without re-checking the file — even on a filesystem where
the file now exists and decodes, for which a fresh (uncached) load would
succeed. -/
theorem load_full_image_failure_not_cached_cex :
    "p" ∈ cacheKeys (load_full_image [] mOps fsNone diskNone "p").snd ∧
    (load_full_image (load_full_image [] mOps fsNone diskNone "p").snd
        mOps fsAll diskSample "p").fst = none ∧
    load_full_image_uncached mOps fsAll diskSample "p" ≠ none := by
  refine ⟨by decide, by decide, by decide⟩

/-- C2 amended: failed loads ARE cached — if a load of a fresh path returns
None, the path becomes resident in the cache, and a subsequent call for the
same path returns the remembered None without re-checking the file or
re-attempting decoding (whatever the filesystem and decoder would now say). -/
theorem load_full_image_failure_cached
    (st : CacheState) (ops : CVOps) (fs : String → Bool)
    (disk : String → Option Raster) (p : String) (hp : p ∉ cacheKeys st)
    (hfail : (load_full_image st ops fs disk p).fst = none) :
    p ∈ cacheKeys (load_full_image st ops fs disk p).snd ∧
    ∀ (fs2 : String → Bool) (dsk2 : String → Option Raster),
      (load_full_image (load_full_image st ops fs disk p).snd ops fs2 dsk2 p).fst = none := by
  have hfind := find?_none_of_not_mem_keys st p hp
  constructor
  · rw [load_full_image, lruLoad_eq_miss st _ p hfind]
    dsimp only
    rw [take_pos_cons lruCapacity (by decide)]
    simp [cacheKeys]
  · intro fs2 dsk2
    calc (load_full_image (load_full_image st ops fs disk p).snd ops fs2 dsk2 p).fst
        = (load_full_image st ops fs disk p).fst :=
          lruLoad_again st (load_full_image_uncached ops fs disk)
            (load_full_image_uncached ops fs2 dsk2) p
      _ = none := hfail

/-- Witness for C2 amended at a concrete path and state. -/
theorem load_full_image_failure_cached_witness :
    "q" ∈ cacheKeys (load_full_image [] mOps fsNone diskNone "q").snd ∧
    (load_full_image (load_full_image [] mOps fsNone diskNone "q").snd
        mOps fsAll diskSample "q").fst = none :=
  ⟨(load_full_image_failure_cached [] mOps fsNone diskNone "q" (by decide) rfl).1,
    (load_full_image_failure_cached [] mOps fsNone diskNone "q" (by decide) rfl).2
      fsAll diskSample⟩

/-- Loading any list of fresh, pairwise-distinct paths grows the cache until
it saturates at capacity. -/
theorem loadAll_fresh_length (ops : CVOps) (fs : String → Bool)
    (disk : String → Option Raster) :
    ∀ (ks : List String) (st : CacheState), ks.Nodup →
      (∀ k ∈ ks, k ∉ cacheKeys st) → st.length ≤ lruCapacity →
      (loadAll st ops fs disk ks).length = min (st.length + ks.length) lruCapacity := by
  intro ks
  induction ks with
  | nil =>
      intro st _ _ hle
      simp only [loadAll, List.foldl_nil, List.length_nil]
      omega
  | cons k ks ih =>
      intro st hnd hfresh hle
      have hfind := find?_none_of_not_mem_keys st k (hfresh k (List.mem_cons_self k ks))
      have hstep : (load_full_image st ops fs disk k).snd =
          ((k, load_full_image_uncached ops fs disk k) :: st).take lruCapacity := by
        rw [load_full_image, lruLoad_eq_miss st _ k hfind]
      have hlen2 : ((load_full_image st ops fs disk k).snd).length =
          min lruCapacity (st.length + 1) := by
        rw [hstep, List.length_take, List.length_cons]
      have hsub : ∀ x, x ∈ cacheKeys (load_full_image st ops fs disk k).snd →
          x ∈ k :: cacheKeys st := by
        intro x hx
        rw [hstep] at hx
        simp only [cacheKeys, List.map_take, List.map_cons] at hx
        exact List.take_subset _ _ hx
      have hfresh2 : ∀ k2 ∈ ks, k2 ∉ cacheKeys (load_full_image st ops fs disk k).snd := by
        intro k2 hk2 hmem
        rcases List.mem_cons.mp (hsub k2 hmem) with h1 | h2
        · exact (List.nodup_cons.mp hnd).1 (h1 ▸ hk2)
        · exact hfresh k2 (List.mem_cons_of_mem _ hk2) h2
      have hfold : loadAll st ops fs disk (k :: ks) =
          loadAll (load_full_image st ops fs disk k).snd ops fs disk ks := by
        simp [loadAll]
      rw [hfold, ih _ (List.nodup_cons.mp hnd).2 hfresh2 (by rw [hlen2]; omega), hlen2,
        List.length_cons]
      omega

/-- C3: cache bounding and LRU eviction — a load never grows the cache past
32 distinct entries; when a fresh path is loaded into a full cache the
least-recently-used entry (tail of the recency order) is the one evicted and
the new path becomes resident; and loading 33 distinct paths into an empty
cache leaves exactly 32 resident entries. -/
theorem load_full_image_cache_bounded_lru :
    (∀ (st : CacheState) (ops : CVOps) (fs : String → Bool)
        (disk : String → Option Raster) (p : String), st.length ≤ lruCapacity →
      ((load_full_image st ops fs disk p).snd).length ≤ lruCapacity ∧
      ((cacheKeys st).Nodup → (cacheKeys (load_full_image st ops fs disk p).snd).Nodup)) ∧
    (∀ (st : CacheState) (ops : CVOps) (fs : String → Bool)
        (disk : String → Option Raster) (p : String) (e : String × Option Raster),
      (cacheKeys st).Nodup → st.length = lruCapacity → p ∉ cacheKeys st →
      st.getLast? = some e →
      cacheKeys (load_full_image st ops fs disk p).snd = p :: (cacheKeys st).dropLast ∧
      e.fst ∉ cacheKeys (load_full_image st ops fs disk p).snd ∧
      p ∈ cacheKeys (load_full_image st ops fs disk p).snd) ∧
    (∀ (ops : CVOps) (fs : String → Bool) (disk : String → Option Raster)
        (ks : List String), ks.Nodup → ks.length = 33 →
      (loadAll [] ops fs disk ks).length = lruCapacity) := by
  refine ⟨?_, ?_, ?_⟩
  · intro st ops fs disk p hlen
    constructor
    · cases h : st.find? (fun q => q.fst == p) with
      | some q =>
          rw [load_full_image, lruLoad_eq_hit st _ p q h]
          dsimp only
          have hlt : (st.filter (fun r => !(r.fst == p))).length < st.length := by
            rw [List.length_filter_lt_length_iff_exists]
            exact ⟨q, List.mem_of_find?_eq_some h, by simp [List.find?_some h]⟩
          rw [List.length_cons]
          omega
      | none =>
          rw [load_full_image, lruLoad_eq_miss st _ p h]
          dsimp only
          rw [List.length_take]
          exact Nat.min_le_left _ _
    · intro hnd
      cases h : st.find? (fun q => q.fst == p) with
      | some q =>
          rw [load_full_image, lruLoad_eq_hit st _ p q h]
          dsimp only
          simp only [cacheKeys, List.map_cons]
          rw [List.nodup_cons]
          constructor
          · intro hmem
            obtain ⟨r, hr, hrfst⟩ := List.mem_map.mp hmem
            have hpr := (List.mem_filter.mp hr).2
            simp only [Bool.not_eq_true', beq_eq_false_iff_ne, ne_eq] at hpr
            exact hpr hrfst
          · exact List.Nodup.sublist (List.Sublist.map Prod.fst (List.filter_sublist st)) hnd
      | none =>
          rw [load_full_image, lruLoad_eq_miss st _ p h]
          dsimp only
          simp only [cacheKeys, List.map_take, List.map_cons]
          have hp : p ∉ st.map Prod.fst := by
            intro hmem
            obtain ⟨r, hr, hrf⟩ := List.mem_map.mp hmem
            have := List.find?_eq_none.mp h r hr
            simp [hrf] at this
          exact List.Nodup.sublist (List.take_sublist _ _) (List.nodup_cons.mpr ⟨hp, hnd⟩)
  · intro st ops fs disk p e hnd hlen hp hlast
    have hfind := find?_none_of_not_mem_keys st p hp
    have hkeyslen : (cacheKeys st).length = lruCapacity := by
      rw [cacheKeys, List.length_map, hlen]
    have hkeys2 : cacheKeys (load_full_image st ops fs disk p).snd =
        p :: (cacheKeys st).dropLast := by
      rw [load_full_image, lruLoad_eq_miss st _ p hfind]
      dsimp only
      rw [take_pos_cons lruCapacity (by decide)]
      simp only [cacheKeys, List.map_cons, List.map_take]
      rw [List.dropLast_eq_take, List.length_map, hlen]
    have hKlast : (cacheKeys st).getLast? = some e.fst := by
      rw [cacheKeys, List.getLast?_map, hlast]
      rfl
    have happ : (cacheKeys st).dropLast ++ [e.fst] = cacheKeys st :=
      List.dropLast_append_getLast? e.fst (by simp [hKlast])
    have heMem : e.fst ∈ cacheKeys st := by
      rw [← happ]
      exact List.mem_append_right _ (by simp)
    have hne : e.fst ≠ p := fun hh => hp (hh ▸ heMem)
    have hnotdrop : e.fst ∉ (cacheKeys st).dropLast := by
      have hnd2 : ((cacheKeys st).dropLast ++ [e.fst]).Nodup := by
        rw [happ]
        exact hnd
      intro hmem
      rw [List.nodup_append] at hnd2
      exact hnd2.2.2 hmem (by simp)
    refine ⟨hkeys2, ?_, ?_⟩
    · rw [hkeys2]
      intro hmem
      rcases List.mem_cons.mp hmem with h1 | h2
      · exact hne h1
      · exact hnotdrop h2
    · rw [hkeys2]
      exact List.mem_cons_self _ _
  · intro ops fs disk ks hnd hlen
    have hall := loadAll_fresh_length ops fs disk ks []
      hnd (by intro k _ hk; simp [cacheKeys] at hk) (by simp [lruCapacity])
    rw [hall, hlen]
    rfl

/-- Witness for C3: a concrete miss on a concrete full 32-entry cache keeps
the bound, evicts exactly the least-recently-used key "31", and loading 33
concrete distinct paths into an empty cache leaves exactly 32 entries. -/
theorem load_full_image_cache_bounded_lru_witness :
    ((load_full_image stCap mOps fsNone diskNone "fresh").snd).length ≤ lruCapacity ∧
    ("31", (none : Option Raster)).fst ∉
      cacheKeys (load_full_image stCap mOps fsNone diskNone "fresh").snd ∧
    "fresh" ∈ cacheKeys (load_full_image stCap mOps fsNone diskNone "fresh").snd ∧
    (loadAll [] mOps fsNone diskNone ks33).length = lruCapacity :=
  ⟨(load_full_image_cache_bounded_lru.1 stCap mOps fsNone diskNone "fresh" (by decide)).1,
    (load_full_image_cache_bounded_lru.2.1 stCap mOps fsNone diskNone "fresh"
      ("31", none) (by decide) (by decide) (by decide) (by decide)).2.1,
    (load_full_image_cache_bounded_lru.2.1 stCap mOps fsNone diskNone "fresh"
      ("31", none) (by decide) (by decide) (by decide) (by decide)).2.2,
    load_full_image_cache_bounded_lru.2.2 mOps fsNone diskNone ks33 (by decide) (by decide)⟩

/-- C1: discovery completeness — every key returned by
find_available_image_sets has all four quadrant paths existing on disk, and
a candidate key with any of the four paths missing is excluded from the
result. -/
theorem find_available_image_sets_complete
    (cfg : Config) (listing : List String) (fs : String → Bool) (key : String) :
    (key ∈ find_available_image_sets cfg listing fs →
      ∀ p ∈ filenameValues cfg key, fs p = true) ∧
    (key ∈ potentialNumbers listing → (∃ p ∈ filenameValues cfg key, fs p = false) →
      key ∉ find_available_image_sets cfg listing fs) := by
  constructor
  · intro hmem p hp
    simp only [find_available_image_sets] at hmem
    split at hmem
    · simp at hmem
    · exact List.all_eq_true.mp (List.mem_filter.mp hmem).2 p hp
  · rintro _ ⟨p, hp, hfalse⟩ hmem
    simp only [find_available_image_sets] at hmem
    split at hmem
    · simp at hmem
    · have := List.all_eq_true.mp (List.mem_filter.mp hmem).2 p hp
      rw [this] at hfalse
      exact absurd hfalse (by simp)

/-- Witness for C1 on a concrete filesystem: all four files of discovered set
0001 exist, and candidate 0002 (missing its bl file) is excluded. -/
theorem find_available_image_sets_complete_witness :
    (∀ p ∈ filenameValues cfg0 "0001", fsDemo p = true) ∧
    "0002" ∈ potentialNumbers listing0 ∧
    "0002" ∉ find_available_image_sets cfg0 listing0 fsDemo :=
  ⟨(find_available_image_sets_complete cfg0 listing0 fsDemo "0001").1 (by decide),
    by decide,
    (find_available_image_sets_complete cfg0 listing0 fsDemo "0002").2 (by decide)
      ⟨blPath cfg0 "0002", by decide, by decide⟩⟩

/-- C8: preview endpoint error mapping — unknown set number, invalid
quadrant, missing file, and failed load each yield a not-found response; a
preview failure after a successful load yields an internal error; otherwise
the JPEG bytes are returned. -/
theorem get_image_preview_error_mapping
    (cfg : Config) (sets : List String) (fs : String → Bool)
    (load : String → Option Raster) (sn q : String) :
    (sn ∉ sets → (get_image_preview cfg sets fs load sn q).isNotFound = true) ∧
    (q ∉ quadrants → (get_image_preview cfg sets fs load sn q).isNotFound = true) ∧
    (∀ fp, sn ∈ sets → q ∈ quadrants → get_filenames cfg sn q = some fp →
      fs fp = false → (get_image_preview cfg sets fs load sn q).isNotFound = true) ∧
    (∀ fp, sn ∈ sets → q ∈ quadrants → get_filenames cfg sn q = some fp → fp ≠ "" →
      fs fp = true → load fp = none →
      (get_image_preview cfg sets fs load sn q).isNotFound = true) ∧
    (∀ fp img, sn ∈ sets → q ∈ quadrants → get_filenames cfg sn q = some fp → fp ≠ "" →
      fs fp = true → load fp = some img → create_low_res_preview (some img) 400 = none →
      (get_image_preview cfg sets fs load sn q).isInternalError = true) ∧
    (∀ fp img b, sn ∈ sets → q ∈ quadrants → get_filenames cfg sn q = some fp → fp ≠ "" →
      fs fp = true → load fp = some img → create_low_res_preview (some img) 400 = some b →
      get_image_preview cfg sets fs load sn q = ApiResult.ok b) := by
  refine ⟨?_, ?_, ?_, ?_, ?_, ?_⟩
  · intro h
    simp [get_image_preview, h, ApiResult.isNotFound]
  · intro h
    by_cases hsn : sn ∈ sets
    · simp [get_image_preview, hsn, h, ApiResult.isNotFound]
    · simp [get_image_preview, hsn, ApiResult.isNotFound]
  · intro fp hsn hq hfp hfs
    simp [get_image_preview, hsn, hq, hfp, hfs, ApiResult.isNotFound]
  · intro fp hsn hq hfp hne hfs hload
    simp [get_image_preview, hsn, hq, hfp, hne, hfs, hload, ApiResult.isNotFound]
  · intro fp img hsn hq hfp hne hfs hload hprev
    simp [get_image_preview, hsn, hq, hfp, hne, hfs, hload, hprev, ApiResult.isInternalError]
  · intro fp img b hsn hq hfp hne hfs hload hprev
    simp [get_image_preview, hsn, hq, hfp, hne, hfs, hload, hprev]

/-- Witness for C8: an unknown set number yields not-found, and a valid
request on the concrete filesystem yields the JPEG bytes of a 400 x 400
preview. -/
theorem get_image_preview_error_mapping_witness :
    (get_image_preview cfg0 ["0001"] fsDemo (fun _ => some sampleImg)
        "9999" "tl").isNotFound = true ∧
    get_image_preview cfg0 ["0001"] fsDemo (fun _ => some sampleImg) "0001" "tl" =
      ApiResult.ok ⟨400, 400⟩ :=
  ⟨(get_image_preview_error_mapping cfg0 ["0001"] fsDemo (fun _ => some sampleImg)
      "9999" "tl").1 (by decide),
    (get_image_preview_error_mapping cfg0 ["0001"] fsDemo (fun _ => some sampleImg)
      "0001" "tl").2.2.2.2.2 (tlPath cfg0 "0001") sampleImg ⟨400, 400⟩
      (by decide) (by decide) rfl (by decide) (by decide) rfl rfl⟩
